import Mathlib

/-!
Verification of the `mcp-auth-fetch` package (index.ts): URL domain
extraction, authentication-rule matching, the OAuth2 token cache, the
`fetch_url` dispatcher and the `test_auth` introspection tool.

The TypeScript source is embedded shallowly: pure functions become Lean
functions, the mutable token cache becomes explicit state passing, and the
platform collaborators (WHATWG `URL`, `RegExp`, `node-fetch`, `fs`) are
modelled either directly (URL host parsing, restricted to http/https URLs
with reg-name hosts) or as explicit oracle parameters carried in an `Env`
record (regular-expression testing, base64, the network).
-/

namespace McpAuthFetch

/-! ## Domain extraction: model of `new URL(url).host` (WHATWG), used by `getDomain`

The source is
```
export function getDomain(url: string): string {
  try { return new URL(url).host; } catch (error) { return ""; }
}
```
`URL` is the WHATWG URL class.  The model below covers absolute http/https
URLs whose host is a registrable name (letters, digits, `.`, `-`, `_`):
the scheme is matched case-insensitively, the authority runs until the
first `/`, `\`, `?` or `#`, userinfo before `@` is dropped, the host is
ASCII-lowercased, an invalid character or invalid port makes parsing fail
(the `catch` branch), and a default port (80 for http, 443 for https) is
elided from `host`.
-/

/-- ASCII lower-casing of one character, as WHATWG applies to hosts. -/
def toLowerAscii (c : Char) : Char :=
  if 'A' ≤ c ∧ c ≤ 'Z' then Char.ofNat (c.toNat + 32) else c

/-- Characters accepted in a (reg-name) host by the model. -/
def isHostChar (c : Char) : Bool :=
  c.isAlphanum || c = '.' || c = '-' || c = '_'

/-- Characters terminating the authority component of a special URL. -/
def isAuthorityEnd (c : Char) : Bool :=
  c = '/' || c = '\\' || c = '?' || c = '#'

/-- The characters of the scheme prefix of an https URL. -/
def httpsPat : List Char := ['h', 't', 't', 'p', 's', ':', '/', '/']

/-- The characters of the scheme prefix of an http URL. -/
def httpPat : List Char := ['h', 't', 't', 'p', ':', '/', '/']

/-- Strip a (lower-case) pattern from the input, matching the input
case-insensitively; returns the remaining input on success. -/
def stripCI : List Char → List Char → Option (List Char)
  | [], cs => some cs
  | _ :: _, [] => none
  | p :: ps, c :: cs => if toLowerAscii c = p then stripCI ps cs else none

/-- Split off the scheme: `some (true, rest)` for https, `some (false, rest)`
for http, `none` otherwise (which makes the URL fall outside the model and
parse as malformed). -/
def splitScheme (cs : List Char) : Option (Bool × List Char) :=
  match stripCI httpsPat cs with
  | some rest => some (true, rest)
  | none =>
    match stripCI httpPat cs with
    | some rest => some (false, rest)
    | none => none

/-- Drop the userinfo (everything up to the last `@`) from an authority. -/
def dropUserinfo (l : List Char) : List Char :=
  if l.any (fun c => c = '@') then (l.reverse.takeWhile (fun c => c ≠ '@')).reverse
  else l

/-- Digits of a port read as a natural number. -/
def portVal (l : List Char) : Nat :=
  l.foldl (fun acc c => acc * 10 + (c.toNat - 48)) 0

/-- Validate the host and port of a `host[:port]` authority (userinfo
already removed) and produce the value of `.host`: the host lowercased,
followed by the port unless it is empty or the scheme default. -/
def hostOfAuthority (secure : Bool) (hostport : List Char) : Option String :=
  let host := hostport.takeWhile (fun c => c ≠ ':')
  let portDigits := (hostport.dropWhile (fun c => c ≠ ':')).drop 1
  if host.isEmpty then none
  else if !host.all isHostChar then none
  else
    let lhost := host.map toLowerAscii
    if portDigits.isEmpty then some (String.mk lhost)
    else if !portDigits.all Char.isDigit then none
    else
      let n := portVal portDigits
      if 65535 < n then none
      else if (secure ∧ n = 443) ∨ (¬secure ∧ n = 80) then some (String.mk lhost)
      else some (String.mk lhost ++ ":" ++ toString n)

/-- Model of `new URL(url).host`: `none` models the constructor throwing. -/
def urlHost (url : String) : Option String :=
  match splitScheme url.data with
  | none => none
  | some (secure, rest) =>
    hostOfAuthority secure (dropUserinfo (rest.takeWhile (fun c => !isAuthorityEnd c)))

/-- `getDomain` from index.ts: the URL's host, or `""` when parsing throws. -/
def getDomain (url : String) : String :=
  (urlHost url).getD ""

/-! ## Data model (the Zod schemas of index.ts) -/

/-- Result of a `function`-kind credential callback: either a header map or
a `{ token }` object (the `"token" in authResult` test in `fetch_url`).
The zero-argument callback is represented by the value it returns. -/
inductive AuthFnResult where
  | headers (hs : List (String × String))
  | token (t : String)
deriving DecidableEq, Repr

/-- `AuthOAuth2Schema`: `token_url`, `client_id`, `client_secret`, optional
`scope` and `refresh_token`. -/
structure OAuth2Auth where
  token_url : String
  client_id : String
  client_secret : String
  scope : Option String
  refresh_token : Option String
deriving DecidableEq, Repr

/-- `AuthSchema`: the closed union of authentication methods.  For the
`function` kind, `none` represents the callback having been dropped by the
`JSON.parse(JSON.stringify(...))` deep copy in `maskAuthRule` (JSON
serialization silently discards function-valued fields). -/
inductive AuthMethod where
  | bearer (token : String)
  | api_key (key value : String) (inHeader : Bool)
  | basic (username password : String)
  | cookie (cookies : List (String × String))
  | function (fn : Option AuthFnResult)
  | oauth2 (a : OAuth2Auth)
deriving DecidableEq, Repr

/-- `AuthRuleSchema`: a URL pattern bound to an authentication method. -/
structure AuthRule where
  url_pattern : String
  auth : AuthMethod
  description : Option String
  enabled : Option Bool
deriving DecidableEq, Repr

/-- `GlobalSettingsSchema`. -/
structure GlobalSettings where
  default_timeout : Option Nat
  max_retries : Option Nat
  user_agent : Option String
  verbose_test_auth : Option Bool
deriving DecidableEq, Repr

/-- `ConfigSchema`. -/
structure Config where
  auth_rules : List AuthRule
  global_settings : Option GlobalSettings
deriving DecidableEq, Repr

/-! ## Rule matching (`findMatchingRule`)

The JavaScript sorts the enabled rules with the comparator

```
const aIsRegex = a.url_pattern.startsWith("/"); ...
const aIsGlob = a.url_pattern.includes("*"); ...
if (aIsRegex && !bIsRegex) return -1;
if (!aIsRegex && bIsRegex) return 1;
if (!aIsGlob && bIsGlob) return -1;
if (aIsGlob && !bIsGlob) return 1;
return b.url_pattern.length - a.url_pattern.length;
```

and then returns the first sorted rule whose pattern matches the domain
(a `/`-delimited pattern through `new RegExp`, anything else through
`micromatch.isMatch`).  The comparator is the lexicographic order on the
key (regex flag descending, star flag ascending, length descending), a
consistent total preorder, and `Array.prototype.sort` is stable, so the
sort is embedded as a stable insertion sort by the same comparator.
`RegExp` is a platform collaborator and is modelled as an oracle
`regexTest : String → String → Option Bool` (`none` models the `RegExp`
constructor throwing on an invalid pattern, in which case the rule is
skipped). `micromatch.isMatch` is modelled for patterns made of literal
characters and `*` (which matches any run of non-`/` characters). -/

/-- `url_pattern.startsWith("/")`. -/
def startsWithSlash (s : String) : Bool :=
  match s.data with
  | [] => false
  | c :: _ => c = '/'

/-- `url_pattern.includes("*")`. -/
def hasStar (s : String) : Bool :=
  s.data.any (fun c => c = '*')

/-- `url_pattern.slice(1, -1)`: the regex body between the `/` delimiters. -/
def interior (s : String) : String :=
  String.mk ((s.data.drop 1).dropLast)

/-- Glob matching with explicit fuel (structural recursion so that the
kernel can evaluate it); `*` matches any run of characters other than `/`,
every other pattern character matches itself.  Models
`micromatch.isMatch(str, pattern)` on this pattern fragment. -/
def globMatchFuel : Nat → List Char → List Char → Bool
  | 0, _, _ => false
  | _ + 1, [], s => s.isEmpty
  | fuel + 1, p :: ps, s =>
    if p = '*' then
      globMatchFuel fuel ps s ||
        (match s with
         | [] => false
         | c :: cs => decide (c ≠ '/') && globMatchFuel fuel (p :: ps) cs)
    else
      match s with
      | [] => false
      | c :: cs => decide (p = c) && globMatchFuel fuel ps cs

/-- `micromatch.isMatch(str, pattern)` for literal-and-`*` patterns.  One
unit of fuel is spent per step and every step consumes a pattern or a
subject character, so the initial fuel is never exhausted. -/
def isMatch (str pattern : String) : Bool :=
  globMatchFuel (pattern.length + str.length + 1) pattern.data str.data

/-- `rule.enabled !== false`: the filter keeping active rules. -/
def isActive (r : AuthRule) : Bool :=
  r.enabled != some false

/-- The sort comparator of `findMatchingRule` (its exact `-1`/`1`/length
difference returns, as a mathematical integer). -/
def compareRules (a b : AuthRule) : Int :=
  let aIsRegex := startsWithSlash a.url_pattern
  let bIsRegex := startsWithSlash b.url_pattern
  let aIsGlob := hasStar a.url_pattern
  let bIsGlob := hasStar b.url_pattern
  if aIsRegex && !bIsRegex then -1
  else if !aIsRegex && bIsRegex then 1
  else if !aIsGlob && bIsGlob then -1
  else if aIsGlob && !bIsGlob then 1
  else (b.url_pattern.length : Int) - (a.url_pattern.length : Int)

/-- Stable insertion of a rule into an already-sorted list: the rule goes
before the first element it compares strictly below, hence after all
earlier elements it ties with — the placement a stable sort gives the
element arriving last. -/
def insertRule (r : AuthRule) : List AuthRule → List AuthRule
  | [] => [r]
  | x :: xs => if compareRules r x < 0 then r :: x :: xs else x :: insertRule r xs

/-- Stable sort by `compareRules`, equal to `activeRules.sort(comparator)`
(V8's sort is stable and the comparator is a consistent total preorder). -/
def sortRules (l : List AuthRule) : List AuthRule :=
  l.foldl (fun acc r => insertRule r acc) []

/-- One iteration of the matching loop: does `rule` match `domain`?
A `/`-delimited pattern is tested through the regex oracle (an invalid
regex — oracle `none` — is logged and skipped), anything else through
`micromatch.isMatch`. -/
def ruleMatches (regexTest : String → String → Option Bool) (domain : String)
    (rule : AuthRule) : Bool :=
  if startsWithSlash rule.url_pattern then
    match regexTest (interior rule.url_pattern) domain with
    | some b => b
    | none => false
  else isMatch domain rule.url_pattern

/-- `findMatchingRule(url, rules)`: extract the domain (empty domain means
no rule), keep the enabled rules, sort by the comparator, return the first
match. -/
def findMatchingRule (regexTest : String → String → Option Bool)
    (url : String) (rules : List AuthRule) : Option AuthRule :=
  let domain := getDomain url
  if domain = "" then none
  else (sortRules (rules.filter isActive)).find? (ruleMatches regexTest domain)

/-! ## Headers and the token cache

`finalHeaders` and `tokenCache` are JavaScript string-keyed objects; both
are embedded as association lists where assignment updates an existing key
in place and otherwise appends, preserving insertion order exactly as
object property assignment does. -/

/-- Request headers: a string-keyed object. -/
def Headers := List (String × String)
deriving DecidableEq, Repr

/-- Property read `obj[k]`. -/
def getHeader : List (String × String) → String → Option String
  | [], _ => none
  | (k0, v) :: rest, k => if k0 = k then some v else getHeader rest k

/-- Property assignment `obj[k] = v`. -/
def setHeader : List (String × String) → String → String → List (String × String)
  | [], k, v => [(k, v)]
  | (k0, v0) :: rest, k, v =>
    if k0 = k then (k, v) :: rest else (k0, v0) :: setHeader rest k v

/-- `Object.assign(target, source)`: assign every source entry in order. -/
def mergeHeaders (target source : List (String × String)) : List (String × String) :=
  source.foldl (fun acc kv => setHeader acc kv.1 kv.2) target

/-- One entry of the OAuth2 token cache. -/
structure TokenEntry where
  accessToken : String
  expiresAt : Int
deriving DecidableEq, Repr

/-- The process-wide `tokenCache` object. -/
def Cache := List (String × TokenEntry)
deriving DecidableEq, Repr

/-- `tokenCache[cacheKey]` read. -/
def cacheGet : List (String × TokenEntry) → String → Option TokenEntry
  | [], _ => none
  | (k, e) :: rest, key => if k = key then some e else cacheGet rest key

/-- `tokenCache[cacheKey] = entry`. -/
def cacheSet : List (String × TokenEntry) → String → TokenEntry → List (String × TokenEntry)
  | [], key, e => [(key, e)]
  | (k, e0) :: rest, key, e =>
    if k = key then (key, e) :: rest else (k, e0) :: cacheSet rest key e

/-! ## The OAuth2 token manager (`getOAuth2Token`) -/

/-- Outcome of the token-endpoint POST performed inside `getOAuth2Token`:
a 2xx response carrying `{access_token, expires_in}`, a non-2xx response
(status, statusText, body text), or the fetch promise rejecting (network
failure), whose message propagates as a thrown error. -/
inductive TokenNetResult where
  | ok (access_token : String) (expires_in : Int)
  | httpErr (status : Nat) (statusText : String) (body : String)
  | reject (msg : String)
deriving DecidableEq, Repr

/-- `` `${auth.token_url}|${auth.client_id}` ``: the cache key. -/
def oauthKey (a : OAuth2Auth) : String :=
  a.token_url ++ "|" ++ a.client_id

/-- The `URLSearchParams` body built by `getOAuth2Token`, in append order.
`if (auth.scope)` and `if (auth.refresh_token)` are JavaScript truthiness
tests, so an empty string behaves like an absent field. -/
def oauthParams (a : OAuth2Auth) : List (String × String) :=
  [("client_id", a.client_id), ("client_secret", a.client_secret)] ++
    (match a.scope with
     | some s => if s = "" then [] else [("scope", s)]
     | none => []) ++
    (match a.refresh_token with
     | some rt =>
       if rt = "" then [("grant_type", "client_credentials")]
       else [("grant_type", "refresh_token"), ("refresh_token", rt)]
     | none => [("grant_type", "client_credentials")])

/-- The cache-miss tail of `getOAuth2Token`: perform the exchange, fail
with the formatted message on a non-2xx response (caching nothing), store
`{accessToken, expiresAt := now + (expires_in - 60) * 1000}` on success.
The triple returned is (result-or-thrown-error, cache after, number of
network exchanges performed). -/
def oauthExchange (net : String → List (String × String) → TokenNetResult)
    (now : Int) (cache : List (String × TokenEntry)) (a : OAuth2Auth) :
    Except String String × List (String × TokenEntry) × Nat :=
  match net a.token_url (oauthParams a) with
  | .reject msg => (.error msg, cache, 1)
  | .httpErr status statusText body =>
    (.error ("Failed to fetch OAuth2 token: " ++ toString status ++ " " ++
      statusText ++ " - " ++ body), cache, 1)
  | .ok tok expiresIn =>
    (.ok tok, cacheSet cache (oauthKey a) ⟨tok, now + (expiresIn - 60) * 1000⟩, 1)

/-- `getOAuth2Token(auth)`: return the cached token when
`Date.now() < expiresAt`, otherwise run the exchange. -/
def getOAuth2Token (net : String → List (String × String) → TokenNetResult)
    (now : Int) (cache : List (String × TokenEntry)) (a : OAuth2Auth) :
    Except String String × List (String × TokenEntry) × Nat :=
  match cacheGet cache (oauthKey a) with
  | some e =>
    if now < e.expiresAt then (.ok e.accessToken, cache, 0)
    else oauthExchange net now cache a
  | none => oauthExchange net now cache a

/-! ## The dispatcher (`fetch_url`) and introspection (`test_auth`) -/

/-- The outgoing resource request handed to `fetch`. -/
structure Request where
  url : String
  method : String
  headers : List (String × String)
  body : Option String
deriving DecidableEq, Repr

/-- How the resource fetch settles: resolves with a body text, or rejects
with an error carrying a name and a message (`AbortError` is the name the
abort controller produces). -/
inductive TransportOutcome where
  | ok (text : String)
  | err (name msg : String)
deriving DecidableEq, Repr

/-- The transport's behaviour for one request: when it would settle
(milliseconds after dispatch) and how.  If `time` is at or past the
effective timeout, the armed abort fires first and the fetch rejects with
an `AbortError` instead. -/
structure TransportResult where
  time : Nat
  outcome : TransportOutcome
deriving DecidableEq, Repr

/-- The external collaborators of index.ts, passed explicitly:
configuration loading (`loadConfig()`, whose thrown errors are `.error`),
`findConfigFile()`, the platform `RegExp` oracle, base64
(`Buffer.toString("base64")`), URL query-appending
(`new URL` + `searchParams.append` + `toString`), the token-endpoint
network, and the resource transport (`node-fetch`). -/
structure Env where
  loadConfig : Except String Config
  configFile : Option String
  regexTest : String → String → Option Bool
  base64 : String → String
  appendQuery : String → String → String → String
  tokenFetch : String → List (String × String) → TokenNetResult
  transport : Request → TransportResult

/-- Effects observable from one `fetch_url` invocation: the resource
request issued (if any), how many resource requests and token exchanges
were performed, and the token cache afterwards. -/
structure FetchEffects where
  request : Option Request
  transportCalls : Nat
  tokenCalls : Nat
  cache : List (String × TokenEntry)
deriving DecidableEq, Repr

/-- The `switch (auth.type)` block of `fetch_url`, wrapped in its `try`:
`.error` is the caught exception's message.  Returns the (possibly
query-rewritten) URL and headers, the cache after, and the number of token
exchanges.  A `function` credential whose callback was lost to JSON
serialization throws when called, hence the `.error` on `none`. -/
def applyAuth (env : Env) (now : Int) (cache : List (String × TokenEntry))
    (url : String) (hs : List (String × String)) :
    AuthMethod → Except String (String × List (String × String)) × List (String × TokenEntry) × Nat
  | .bearer token =>
    (.ok (url, setHeader hs "Authorization" ("Bearer " ++ token)), cache, 0)
  | .api_key key value inHeader =>
    if inHeader then (.ok (url, setHeader hs key value), cache, 0)
    else (.ok (env.appendQuery url key value, hs), cache, 0)
  | .basic username password =>
    (.ok (url, setHeader hs "Authorization"
      ("Basic " ++ env.base64 (username ++ ":" ++ password))), cache, 0)
  | .cookie cookies =>
    (.ok (url, setHeader hs "Cookie"
      (String.intercalate "; " (cookies.map (fun kv => kv.1 ++ "=" ++ kv.2)))), cache, 0)
  | .function fn =>
    match fn with
    | some (.token t) =>
      (.ok (url, setHeader hs "Authorization" ("Bearer " ++ t)), cache, 0)
    | some (.headers nh) => (.ok (url, mergeHeaders hs nh), cache, 0)
    | none => (.error "auth.function is not a function", cache, 0)
  | .oauth2 a =>
    match getOAuth2Token env.tokenFetch now cache a with
    | (.ok tok, cache2, n) =>
      (.ok (url, setHeader hs "Authorization" ("Bearer " ++ tok)), cache2, n)
    | (.error m, cache2, n) => (.error m, cache2, n)

/-- The credential-application phase of `fetch_url`: nothing happens when
no rule matched. -/
def authPhase (env : Env) (now : Int) (cache : List (String × TokenEntry))
    (url : String) (hs : List (String × String)) :
    Option AuthRule → Except String (String × List (String × String)) × List (String × TokenEntry) × Nat
  | none => (.ok (url, hs), cache, 0)
  | some r => applyAuth env now cache url hs r.auth

/-- `if (config.global_settings?.user_agent) finalHeaders["User-Agent"] = ...`
(a truthiness test, so an empty string is skipped). -/
def applyUserAgent (config : Config) (headers : List (String × String)) :
    List (String × String) :=
  match config.global_settings with
  | some gs =>
    match gs.user_agent with
    | some ua => if ua = "" then headers else setHeader headers "User-Agent" ua
    | none => headers
  | none => headers

/-- The tail of `fetch_url` after a successful credential phase: resolve
the effective timeout `timeout ?? config.global_settings?.default_timeout
?? 30000`, issue the resource request, and map the settlement to the
returned string — the abort timer fires if the transport has not settled
strictly before the timeout, making the fetch reject with an
`AbortError`. -/
def dispatchRequest (env : Env) (config : Config) (method : String)
    (body : Option String) (timeout : Option Nat) (ntok : Nat)
    (cache2 : List (String × TokenEntry)) (url2 : String)
    (headers2 : List (String × String)) : Except String (String × FetchEffects) :=
  let finalTimeout :=
    timeout.getD ((config.global_settings.bind GlobalSettings.default_timeout).getD 30000)
  let req : Request := ⟨url2, method, headers2, body⟩
  let tr := env.transport req
  let res :=
    if finalTimeout ≤ tr.time then
      "Request timed out after " ++ toString finalTimeout ++ "ms"
    else
      match tr.outcome with
      | .ok text => text
      | .err name msg =>
        if name = "AbortError" then
          "Request timed out after " ++ toString finalTimeout ++ "ms"
        else msg
  .ok (res, ⟨some req, 1, ntok, cache2⟩)

/-- The body of `fetch_url` once `loadConfig()` has returned: merge the
global user agent, match a rule, apply its credential (a caught failure
returns `"Authentication failed: ..."` without issuing the resource
request), then dispatch. -/
def fetchWithConfig (env : Env) (now : Int) (cache : List (String × TokenEntry))
    (url : String) (method : String) (headers : List (String × String))
    (body : Option String) (timeout : Option Nat) (config : Config) :
    Except String (String × FetchEffects) :=
  match authPhase env now cache url (applyUserAgent config headers)
      (findMatchingRule env.regexTest url config.auth_rules) with
  | (.error msg, cache2, ntok) =>
    .ok ("Authentication failed: " ++ msg, ⟨none, 0, ntok, cache2⟩)
  | (.ok (url2, headers2), cache2, ntok) =>
    dispatchRequest env config method body timeout ntok cache2 url2 headers2

/-- `fetch_url(url, method, headers, body, timeout)`.  The result is
`.error` exactly when the invocation throws to its caller — only
`loadConfig()` runs outside every `try` — and `.ok` carries the returned
string together with the observable effects. -/
def fetch_url (env : Env) (now : Int) (cache : List (String × TokenEntry))
    (url : String) (method : String) (headers : List (String × String))
    (body : Option String) (timeout : Option Nat) :
    Except String (String × FetchEffects) :=
  match env.loadConfig with
  | .error e => .error e
  | .ok config => fetchWithConfig env now cache url method headers body timeout config

/-- The fixed mask token. -/
def MASKED : String := "***MASKED***"

/-- The `switch` of `maskAuthRule`, applied to the deep copy: each kind has
its sensitive fields overwritten.  The `oauth2` case assigns
`refresh_token` unconditionally (creating the property when it was
absent), and the preceding `JSON.parse(JSON.stringify(rule))` copy drops a
`function` kind's callback. -/
def maskAuth : AuthMethod → AuthMethod
  | .bearer _ => .bearer MASKED
  | .api_key key _ inHeader => .api_key key MASKED inHeader
  | .basic _ _ => .basic MASKED MASKED
  | .cookie cookies => .cookie (cookies.map (fun kv => (kv.1, MASKED)))
  | .function _ => .function none
  | .oauth2 a => .oauth2 { a with client_secret := MASKED, refresh_token := some MASKED }

/-- `maskAuthRule(rule)`. -/
def maskAuthRule (rule : AuthRule) : AuthRule :=
  { rule with auth := maskAuth rule.auth }

/-- The object `test_auth` returns; `configFile := none` covers both the
JavaScript `null` and the field being absent. -/
structure TestAuthResult where
  rule : Option AuthRule
  configFile : Option String
  error : Option String
deriving DecidableEq, Repr

/-- JavaScript truthiness of `configFile` (a string or `undefined`). -/
def strTruthy : Option String → Bool
  | none => false
  | some s => !s.isEmpty

/-- `configFile || "No config file found"`. -/
def orElseStr (o : Option String) (d : String) : String :=
  match o with
  | some s => if s = "" then d else s
  | none => d

/-- `!config.global_settings?.verbose_test_auth` is false, i.e. verbose
mode is on, exactly when the flag is truthy. -/
def isVerbose (c : Config) : Bool :=
  (c.global_settings.bind GlobalSettings.verbose_test_auth).getD false

/-- The body of `test_auth` once `loadConfig()` has returned: look the
config file up again, match a rule, and mask it unless verbose mode is
on. -/
def testAuthWithConfig (env : Env) (config : Config) (url : String) : TestAuthResult :=
  match findMatchingRule env.regexTest url config.auth_rules with
  | some r =>
    if isVerbose config then
      ⟨some r, some (orElseStr env.configFile "No config file found"), none⟩
    else
      ⟨some (maskAuthRule r),
       if strTruthy env.configFile then some "config file has used" else none, none⟩
  | none => ⟨none, some (orElseStr env.configFile "No config file found"), none⟩

/-- `test_auth(url)`: everything runs inside one `try`; a thrown
configuration-loading error is caught and returned as
`{ rule: null, error }`. -/
def test_auth (env : Env) (url : String) : TestAuthResult :=
  match env.loadConfig with
  | .error e => ⟨none, none, some e⟩
  | .ok config => testAuthWithConfig env config url

/-! ## Witness fixtures -/

/-- A regex oracle that rejects every pattern (never consulted by the
fixtures below that carry no regex rule). -/
def rtFalse : String → String → Option Bool := fun _ _ => some false

/-- Oracle recording that `new RegExp("ex").test("a.ex.com")` is true. -/
def rtEx : String → String → Option Bool := fun pat dom =>
  some (decide (pat = "ex" ∧ dom = "a.ex.com"))

/-- Oracle recording that `new RegExp("ab")` and `new RegExp("a*bc")` both
accept `"abc"` (`a*` matches one `a`, and `RegExp.test` is unanchored). -/
def rtAbc : String → String → Option Bool := fun pat dom =>
  some (decide (dom = "abc" ∧ (pat = "ab" ∨ pat = "a*bc")))

/-- Regex rule fixture `/ex/`. -/
def ruleRegexEx : AuthRule := ⟨"/ex/", .bearer "tok-regex", none, none⟩

/-- Glob rule fixture `*.ex.com`. -/
def ruleGlobEx : AuthRule := ⟨"*.ex.com", .bearer "tok-glob", none, none⟩

/-- Exact rule fixture `a.ex.com`. -/
def ruleExactEx : AuthRule := ⟨"a.ex.com", .bearer "tok-exact", none, none⟩

/-- Longer regex-tier rule containing a `*`. -/
def ruleStarLong : AuthRule := ⟨"/a*bc/", .bearer "tok-long", none, none⟩

/-- Shorter regex-tier rule without a `*`. -/
def ruleStarShort : AuthRule := ⟨"/ab/", .bearer "tok-short", none, none⟩

/-- Catch-all glob rule fixture. -/
def ruleWild : AuthRule := ⟨"*", .bearer "tok-wild", none, none⟩

/-- OAuth2 method fixture. -/
def oaFix : OAuth2Auth := ⟨"https://auth.example.com/token", "cid", "sec", none, none⟩

/-- Exact rule fixture carrying the OAuth2 method. -/
def oauthRule : AuthRule := ⟨"auth.example.com", .oauth2 oaFix, none, none⟩

/-- A token endpoint answering success with a one-hour token. -/
def netTok : String → List (String × String) → TokenNetResult := fun _ _ => .ok "TOK123" 3600

/-- A token endpoint answering 401. -/
def netFail : String → List (String × String) → TokenNetResult :=
  fun _ _ => .httpErr 401 "Unauthorized" "bad client"

/-- A transport that settles immediately and successfully. -/
def transOk : Request → TransportResult := fun _ => ⟨0, .ok "OK-BODY"⟩

/-- A transport that would only settle long after any timeout used here. -/
def transSlow : Request → TransportResult := fun _ => ⟨900000, .ok "late"⟩

/-- Base environment shared by the witness fixtures. -/
def envBase : Env := {
  loadConfig := .ok ⟨[], none⟩
  configFile := some "/home/u/.mcp-auth-fetch.json"
  regexTest := rtFalse
  base64 := fun s => s
  appendQuery := fun u k v => u ++ "?" ++ k ++ "=" ++ v
  tokenFetch := netTok
  transport := transOk }

/-- Environment whose configuration loading throws. -/
def envBad : Env := { envBase with loadConfig := .error "boom" }

/-- Environment with an oauth2 rule for `auth.example.com` and a failing
token endpoint. -/
def envOauthFail : Env := { envBase with
  loadConfig := .ok ⟨[oauthRule], none⟩
  tokenFetch := netFail }

/-- Environment with a global user agent and no rules. -/
def envUA : Env := { envBase with
  loadConfig := .ok ⟨[], some ⟨none, none, some "Global/2.0", none⟩⟩ }

/-- Environment with no rules and a transport slower than every timeout. -/
def envSlow : Env := { envBase with transport := transSlow }

/-- Environment with one exact bearer rule for `a.ex.com`. -/
def envRule : Env := { envBase with
  loadConfig := .ok ⟨[ruleExactEx], none⟩ }

/-! ## Helper lemmas -/

theorem data_append (s t : String) : (s ++ t).data = s.data ++ t.data := by
  cases s; cases t; rfl

theorem takeWhile_of_all {p : Char → Bool} :
    ∀ l : List Char, (∀ c ∈ l, p c = true) → l.takeWhile p = l := by
  intro l hl
  induction l with
  | nil => rfl
  | cons a l ih =>
    rw [List.takeWhile_cons, hl a (List.mem_cons_self a l)]
    simp [ih fun c hc => hl c (List.mem_cons_of_mem a hc)]

theorem takeWhile_append_of_all {p : Char → Bool} :
    ∀ l r : List Char, (∀ c ∈ l, p c = true) →
      (l ++ r).takeWhile p = l ++ r.takeWhile p := by
  intro l r hl
  induction l with
  | nil => rfl
  | cons a l ih =>
    rw [List.cons_append, List.takeWhile_cons, hl a (List.mem_cons_self a l)]
    simp [ih fun c hc => hl c (List.mem_cons_of_mem a hc)]

theorem dropWhile_of_all {p : Char → Bool} :
    ∀ l : List Char, (∀ c ∈ l, p c = true) → l.dropWhile p = [] := by
  intro l hl
  induction l with
  | nil => rfl
  | cons a l ih =>
    rw [List.dropWhile_cons, hl a (List.mem_cons_self a l)]
    simpa using ih fun c hc => hl c (List.mem_cons_of_mem a hc)

theorem dropWhile_append_of_all {p : Char → Bool} :
    ∀ l r : List Char, (∀ c ∈ l, p c = true) →
      (l ++ r).dropWhile p = r.dropWhile p := by
  intro l r hl
  induction l with
  | nil => rfl
  | cons a l ih =>
    rw [List.cons_append, List.dropWhile_cons, hl a (List.mem_cons_self a l)]
    simpa using ih fun c hc => hl c (List.mem_cons_of_mem a hc)

theorem hostChar_not_authEnd {c : Char} (h : isHostChar c = true) :
    (!isAuthorityEnd c) = true := by
  cases hb : isAuthorityEnd c with
  | false => rfl
  | true =>
    exfalso
    simp only [isAuthorityEnd, Bool.or_eq_true, decide_eq_true_eq] at hb
    rcases hb with (((h1 | h1) | h1) | h1) <;> subst h1 <;> exact absurd h (by decide)

theorem hostChar_ne_colon {c : Char} (h : isHostChar c = true) : c ≠ ':' := by
  intro he; subst he; exact absurd h (by decide)

theorem hostChar_ne_at {c : Char} (h : isHostChar c = true) : c ≠ '@' := by
  intro he; subst he; exact absurd h (by decide)

theorem dropUserinfo_of_no_at {l : List Char} (h : ∀ c ∈ l, c ≠ '@') :
    dropUserinfo l = l := by
  have : l.any (fun c => c = '@') = false := by
    rw [← Bool.not_eq_true]
    simp only [List.any_eq_true, decide_eq_true_eq, not_exists]
    intro c
    simp only [not_and]
    exact fun hc => h c hc
  simp [dropUserinfo, this]

theorem splitScheme_https (rest : List Char) :
    splitScheme (httpsPat ++ rest) = some (true, rest) := rfl

theorem cacheGet_cacheSet (c : List (String × TokenEntry)) (k : String) (e : TokenEntry) :
    cacheGet (cacheSet c k e) k = some e := by
  induction c with
  | nil => simp [cacheSet, cacheGet]
  | cons a rest ih =>
    by_cases hk : a.1 = k
    · simp [cacheSet, cacheGet, hk]
    · simp [cacheSet, cacheGet, hk, ih]

theorem getHeader_setHeader_same (hs : List (String × String)) (k v : String) :
    getHeader (setHeader hs k v) k = some v := by
  induction hs with
  | nil => simp [setHeader, getHeader]
  | cons a rest ih =>
    by_cases hk : a.1 = k
    · simp [setHeader, getHeader, hk]
    · simp [setHeader, getHeader, hk, ih]

theorem getHeader_setHeader_other (hs : List (String × String)) {k k' : String}
    (v : String) (hne : k ≠ k') :
    getHeader (setHeader hs k v) k' = getHeader hs k' := by
  induction hs with
  | nil => simp [setHeader, getHeader, hne]
  | cons a rest ih =>
    by_cases hk : a.1 = k
    · simp [setHeader, getHeader, hk, hne]
    · simp [setHeader, getHeader, hk, ih]

theorem isActive_of_ne {r : AuthRule} (h : r.enabled ≠ some false) :
    isActive r = true := by
  unfold isActive
  cases he : r.enabled with
  | none => rfl
  | some b => cases b with
    | false => exact absurd he h
    | true => rfl

theorem fetch_url_of_ok {env : Env} {config : Config}
    (hld : env.loadConfig = .ok config) (now : Int)
    (cache : List (String × TokenEntry)) (url method : String)
    (headers : List (String × String)) (body : Option String) (timeout : Option Nat) :
    fetch_url env now cache url method headers body timeout =
      fetchWithConfig env now cache url method headers body timeout config := by
  unfold fetch_url
  rw [hld]

theorem fetchWithConfig_authError {env : Env} {now : Int}
    {cache : List (String × TokenEntry)} {url method : String}
    {headers : List (String × String)} {body : Option String} {timeout : Option Nat}
    {config : Config} {msg : String} {cache2 : List (String × TokenEntry)} {ntok : Nat}
    (hap : authPhase env now cache url (applyUserAgent config headers)
      (findMatchingRule env.regexTest url config.auth_rules) = (.error msg, cache2, ntok)) :
    fetchWithConfig env now cache url method headers body timeout config =
      .ok ("Authentication failed: " ++ msg, ⟨none, 0, ntok, cache2⟩) := by
  unfold fetchWithConfig
  rw [hap]

theorem fetchWithConfig_authOk {env : Env} {now : Int}
    {cache : List (String × TokenEntry)} {url method : String}
    {headers : List (String × String)} {body : Option String} {timeout : Option Nat}
    {config : Config} {url2 : String} {headers2 : List (String × String)}
    {cache2 : List (String × TokenEntry)} {ntok : Nat}
    (hap : authPhase env now cache url (applyUserAgent config headers)
      (findMatchingRule env.regexTest url config.auth_rules) =
      (.ok (url2, headers2), cache2, ntok)) :
    fetchWithConfig env now cache url method headers body timeout config =
      dispatchRequest env config method body timeout ntok cache2 url2 headers2 := by
  unfold fetchWithConfig
  rw [hap]

theorem test_auth_of_ok {env : Env} {config : Config}
    (hld : env.loadConfig = .ok config) (url : String) :
    test_auth env url = testAuthWithConfig env config url := by
  unfold test_auth
  rw [hld]

theorem getOAuth2Token_stale {net : String → List (String × String) → TokenNetResult}
    {now : Int} {cache : List (String × TokenEntry)} {a : OAuth2Auth}
    (hm : ∀ e, cacheGet cache (oauthKey a) = some e → e.expiresAt ≤ now) :
    getOAuth2Token net now cache a = oauthExchange net now cache a := by
  unfold getOAuth2Token
  cases hc : cacheGet cache (oauthKey a) with
  | none => rfl
  | some e => simp [not_lt.2 (hm e hc)]

theorem hostOfAuth_no_colon (secure : Bool) (l : List Char) (hne : l ≠ [])
    (hall : l.all isHostChar = true) :
    hostOfAuthority secure l = some (String.mk (l.map toLowerAscii)) := by
  have hall' : ∀ c ∈ l, isHostChar c = true := by simpa using hall
  have e3 : l.takeWhile (fun c => decide (c ≠ ':')) = l :=
    takeWhile_of_all _ fun c hc => by simpa using hostChar_ne_colon (hall' c hc)
  have e4 : l.dropWhile (fun c => decide (c ≠ ':')) = [] :=
    dropWhile_of_all _ fun c hc => by simpa using hostChar_ne_colon (hall' c hc)
  have hie : l.isEmpty = false := by
    cases hh : l with
    | nil => exact absurd hh hne
    | cons a t => rfl
  unfold hostOfAuthority
  rw [e3, e4]
  simp [hie, hall]

theorem hostOfAuth_port443 (l : List Char) (hne : l ≠ [])
    (hall : l.all isHostChar = true) :
    hostOfAuthority true (l ++ [':', '4', '4', '3']) = some (String.mk (l.map toLowerAscii)) := by
  have hall' : ∀ c ∈ l, isHostChar c = true := by simpa using hall
  have e3 : (l ++ [':', '4', '4', '3']).takeWhile (fun c => decide (c ≠ ':')) = l := by
    rw [takeWhile_append_of_all _ _ fun c hc => by simpa using hostChar_ne_colon (hall' c hc)]
    simp
  have e4 : (l ++ [':', '4', '4', '3']).dropWhile (fun c => decide (c ≠ ':')) =
      [':', '4', '4', '3'] := by
    rw [dropWhile_append_of_all _ _ fun c hc => by simpa using hostChar_ne_colon (hall' c hc)]
    rfl
  have hie : l.isEmpty = false := by
    cases hh : l with
    | nil => exact absurd hh hne
    | cons a t => rfl
  unfold hostOfAuthority
  rw [e3, e4]
  simp +decide [hie, hall, portVal]

/-! ## Claim C4 — `getDomain` and the authority substring

The claim asserts that `getDomain` returns the authority substring of the
input with no case normalization and no default-port elision.  The WHATWG
`URL` class `getDomain` delegates to lowercases the host and elides a
default port, so the claim fails; the counterexample below exhibits both.
The amended statement proves what `getDomain` actually returns. -/

/-- C4 (counterexample): `getDomain` does not return the authority
substring of its input verbatim — `new URL(...)` lowercases the host
(`"https://EXAMPLE.com/a"` yields `"example.com"`, not `"EXAMPLE.com"`)
and elides a scheme-default port (`"https://example.com:443/x"` yields
`"example.com"`, not `"example.com:443"`). -/
theorem getDomain_counterexample :
    getDomain "https://EXAMPLE.com/a" = "example.com" ∧
    getDomain "https://EXAMPLE.com/a" ≠ "EXAMPLE.com" ∧
    getDomain "https://example.com:443/x" = "example.com" ∧
    getDomain "https://example.com:443/x" ≠ "example.com:443" := by decide

/-- C4 (amended): for well-formed https URLs with a reg-name host,
`getDomain` returns the authority with the host ASCII-lowercased and with
a scheme-default port (`443`) elided; for inputs that do not parse (no
http/https scheme in the model) it returns the empty string. -/
theorem getDomain_normalized_host :
    (∀ h p : String, h.data ≠ [] → h.data.all isHostChar = true →
      getDomain ("https://" ++ h ++ "/" ++ p) = String.mk (h.data.map toLowerAscii))
    ∧ (∀ h p : String, h.data ≠ [] → h.data.all isHostChar = true →
      getDomain ("https://" ++ h ++ ":443/" ++ p) = String.mk (h.data.map toLowerAscii))
    ∧ (∀ url : String, splitScheme url.data = none → getDomain url = "") := by
  refine ⟨?_, ?_, ?_⟩
  · intro h p hne hall
    have hall' : ∀ c ∈ h.data, isHostChar c = true := by simpa using hall
    have hdata : ("https://" ++ h ++ "/" ++ p).data = httpsPat ++ (h.data ++ '/' :: p.data) := by
      simp only [data_append, List.append_assoc]
      rfl
    have e1 : (h.data ++ '/' :: p.data).takeWhile (fun c => !isAuthorityEnd c) = h.data := by
      rw [takeWhile_append_of_all _ _ fun c hc => hostChar_not_authEnd (hall' c hc)]
      simp +decide
    have e2 : dropUserinfo h.data = h.data :=
      dropUserinfo_of_no_at fun c hc => hostChar_ne_at (hall' c hc)
    unfold getDomain urlHost
    rw [hdata, splitScheme_https]
    show (hostOfAuthority true (dropUserinfo ((h.data ++ '/' :: p.data).takeWhile
      (fun c => !isAuthorityEnd c)))).getD "" = String.mk (h.data.map toLowerAscii)
    rw [e1, e2, hostOfAuth_no_colon true h.data hne hall]
    rfl
  · intro h p hne hall
    have hall' : ∀ c ∈ h.data, isHostChar c = true := by simpa using hall
    have hdata : ("https://" ++ h ++ ":443/" ++ p).data =
        httpsPat ++ (h.data ++ ':' :: '4' :: '4' :: '3' :: '/' :: p.data) := by
      simp only [data_append, List.append_assoc]
      rfl
    have e1 : (h.data ++ ':' :: '4' :: '4' :: '3' :: '/' :: p.data).takeWhile
        (fun c => !isAuthorityEnd c) = h.data ++ [':', '4', '4', '3'] := by
      rw [takeWhile_append_of_all _ _ fun c hc => hostChar_not_authEnd (hall' c hc)]
      rfl
    have e2 : dropUserinfo (h.data ++ [':', '4', '4', '3']) = h.data ++ [':', '4', '4', '3'] := by
      refine dropUserinfo_of_no_at ?_
      intro c hc
      rcases List.mem_append.1 hc with hc | hc
      · exact hostChar_ne_at (hall' c hc)
      · simp only [List.mem_cons, List.not_mem_nil, or_false] at hc
        rcases hc with h1 | h1 | h1 | h1 <;> subst h1 <;> decide
    unfold getDomain urlHost
    rw [hdata, splitScheme_https]
    show (hostOfAuthority true (dropUserinfo ((h.data ++ ':' :: '4' :: '4' :: '3' :: '/' :: p.data).takeWhile
      (fun c => !isAuthorityEnd c)))).getD "" = String.mk (h.data.map toLowerAscii)
    rw [e1, e2, hostOfAuth_port443 h.data hne hall]
    rfl
  · intro url hs
    unfold getDomain urlHost
    rw [hs]
    rfl

/-- C4 (witness): the amended statement at concrete inputs. -/
theorem getDomain_normalized_host_witness :
    getDomain ("https://" ++ "API.ex.com" ++ "/" ++ "u") = "api.ex.com" ∧
    getDomain ("https://" ++ "api.ex.com" ++ ":443/" ++ "u") = "api.ex.com" ∧
    getDomain "not a url" = "" :=
  ⟨(getDomain_normalized_host.1 "API.ex.com" "u" (by decide) (by decide)).trans (by decide),
   (getDomain_normalized_host.2.1 "api.ex.com" "u" (by decide) (by decide)).trans (by decide),
   getDomain_normalized_host.2.2 "not a url" (by decide)⟩

/-! ## Claim C2 — regex tier wins regardless of order -/

/-- C2: for a rule list made of an enabled regex rule, an enabled glob
rule and an enabled exact-literal rule that all match the URL's domain,
`findMatchingRule` returns the regex rule whatever the declaration order:
the comparator puts every `/`-prefixed pattern before every other pattern,
and the regex rule matches, so it is the first hit of the scan. -/
theorem findMatchingRule_regex_wins
    (rt : String → String → Option Bool) (url domain : String)
    (rr rg re : AuthRule) (rules : List AuthRule)
    (hd : getDomain url = domain) (hdne : domain ≠ "")
    (hrS : startsWithSlash rr.url_pattern = true)
    (hgS : startsWithSlash rg.url_pattern = false)
    (hgG : hasStar rg.url_pattern = true)
    (heS : startsWithSlash re.url_pattern = false)
    (heG : hasStar re.url_pattern = false)
    (har : rr.enabled ≠ some false) (hag : rg.enabled ≠ some false)
    (hae : re.enabled ≠ some false)
    (hmr : rt (interior rr.url_pattern) domain = some true)
    (hmg : isMatch domain rg.url_pattern = true)
    (hme : isMatch domain re.url_pattern = true)
    (hperm : rules = [rr, rg, re] ∨ rules = [rr, re, rg] ∨ rules = [rg, rr, re] ∨
      rules = [rg, re, rr] ∨ rules = [re, rr, rg] ∨ rules = [re, rg, rr]) :
    findMatchingRule rt url rules = some rr := by
  have c1 : compareRules rr rg = -1 := by simp [compareRules, hrS, hgS]
  have c2 : compareRules rg rr = 1 := by simp [compareRules, hrS, hgS]
  have c3 : compareRules rr re = -1 := by simp [compareRules, hrS, heS]
  have c4 : compareRules re rr = 1 := by simp [compareRules, hrS, heS]
  have c5 : compareRules re rg = -1 := by simp [compareRules, hgS, heS, hgG, heG]
  have c6 : compareRules rg re = 1 := by simp [compareRules, hgS, heS, hgG, heG]
  have hmatch_r : ruleMatches rt domain rr = true := by simp [ruleMatches, hrS, hmr]
  rcases hperm with h | h | h | h | h | h <;> subst h <;>
    simp +decide [findMatchingRule, hd, hdne, List.filter, isActive_of_ne har,
      isActive_of_ne hag, isActive_of_ne hae, sortRules, insertRule,
      c1, c2, c3, c4, c5, c6, List.find?, hmatch_r]

/-- C2 (witness): regex rule `/ex/`, glob rule `*.ex.com` and exact rule
`a.ex.com` all match `a.ex.com`; listed exact-first, the regex rule is
still returned. -/
theorem findMatchingRule_regex_wins_witness :
    findMatchingRule rtEx "https://a.ex.com/z" [ruleExactEx, ruleGlobEx, ruleRegexEx] =
      some ruleRegexEx :=
  findMatchingRule_regex_wins rtEx "https://a.ex.com/z" "a.ex.com"
    ruleRegexEx ruleGlobEx ruleExactEx _
    (by decide) (by decide) (by decide) (by decide) (by decide) (by decide)
    (by decide) (by decide) (by decide) (by decide) (by decide) (by decide) (by decide)
    (Or.inr (Or.inr (Or.inr (Or.inr (Or.inr rfl)))))

/-! ## Claim C3 — longer pattern wins within a tier

As stated the claim is false: inside the regex tier the comparator still
consults the `includes("*")` flag, so a regex pattern containing `*` is
demoted below regex patterns without `*` before length is ever compared.
The amended statement adds the hypothesis that the two same-tier patterns
agree on containing `*` (automatic in the exact and glob tiers). -/

/-- C3 (counterexample): the enabled regex-tier rules `/a*bc/` (length 6)
and `/ab/` (length 4) both match the domain `abc`
(`new RegExp("a*bc")` and `new RegExp("ab")` both accept `"abc"`), yet
`findMatchingRule` returns the shorter `/ab/` rule: within the regex tier
the pattern containing `*` is sorted after the `*`-free one, length
notwithstanding. -/
theorem findMatchingRule_length_counterexample :
    findMatchingRule rtAbc "https://abc" [ruleStarLong, ruleStarShort] = some ruleStarShort ∧
    ruleMatches rtAbc "abc" ruleStarLong = true ∧
    ruleMatches rtAbc "abc" ruleStarShort = true ∧
    startsWithSlash ruleStarLong.url_pattern = startsWithSlash ruleStarShort.url_pattern ∧
    ruleStarShort.url_pattern.length < ruleStarLong.url_pattern.length ∧
    ruleStarShort ≠ ruleStarLong := by decide

/-- C3 (amended): when two enabled rules of the same tier whose patterns
also agree on containing `*` (which is automatic in the exact-literal and
glob tiers) both match the domain, the rule with the longer `url_pattern`
is returned, in either declaration order. -/
theorem findMatchingRule_longer_wins
    (rt : String → String → Option Bool) (url domain : String)
    (a b : AuthRule) (rules : List AuthRule)
    (hd : getDomain url = domain) (hdne : domain ≠ "")
    (hS : startsWithSlash a.url_pattern = startsWithSlash b.url_pattern)
    (hG : hasStar a.url_pattern = hasStar b.url_pattern)
    (haa : a.enabled ≠ some false) (hab : b.enabled ≠ some false)
    (hma : ruleMatches rt domain a = true)
    (hmb : ruleMatches rt domain b = true)
    (hlen : b.url_pattern.length < a.url_pattern.length)
    (hperm : rules = [a, b] ∨ rules = [b, a]) :
    findMatchingRule rt url rules = some a := by
  have cab : compareRules a b = (b.url_pattern.length : Int) - a.url_pattern.length := by
    simp [compareRules, ← hS, ← hG]
  have cba : compareRules b a = (a.url_pattern.length : Int) - b.url_pattern.length := by
    simp [compareRules, ← hS, ← hG]
  have hlt1 : compareRules a b < 0 := by
    rw [cab, sub_neg]
    exact_mod_cast hlen
  have hlt2 : ¬ compareRules b a < 0 := by
    rw [cba, sub_neg]
    intro hcon
    exact absurd (by exact_mod_cast hcon) (Nat.lt_asymm hlen)
  rcases hperm with h | h <;> subst h <;>
    simp [findMatchingRule, hd, hdne, List.filter, isActive_of_ne haa,
      isActive_of_ne hab, sortRules, insertRule, hlt1, hlt2, List.find?, hma]

/-- C3 (witness): the glob-tier rules `*.ex.com` and `*` both match
`a.ex.com`; listed shorter-first, the longer one is returned. -/
theorem findMatchingRule_longer_wins_witness :
    findMatchingRule rtFalse "https://a.ex.com/z" [ruleWild, ruleGlobEx] = some ruleGlobEx :=
  findMatchingRule_longer_wins rtFalse "https://a.ex.com/z" "a.ex.com"
    ruleGlobEx ruleWild _
    (by decide) (by decide) (by decide) (by decide) (by decide) (by decide)
    (by decide) (by decide) (by decide) (Or.inr rfl)

/-! ## Claim C1 — the public entry points and exceptions

As stated the claim is false for `fetch_url`: `const config = loadConfig()`
runs before the function's `try` blocks, so a configuration-loading
failure (malformed config, missing environment variable) propagates to the
caller as a rejected promise.  `test_auth` does wrap everything, including
`loadConfig()`, in its `try`.  The amended statement separates the two. -/

/-- C1 (counterexample): with a configuration whose load throws `"boom"`,
`fetch_url` propagates the exception to its caller instead of returning a
string. -/
theorem fetch_url_config_error_counterexample :
    fetch_url envBad 0 [] "https://a.ex.com/z" "GET" [] none none = .error "boom" := rfl

/-- C1 (amended): `fetch_url` never raises once configuration loading has
succeeded — auth-application, token-acquisition, transport and timeout
failures are all captured into the returned string — and `test_auth` never
raises at all: in particular a configuration-loading failure is caught and
returned as `{ rule: null, error }`. -/
theorem entrypoints_exception_policy :
    (∀ (env : Env) (now : Int) (cache : List (String × TokenEntry))
      (url method : String) (headers : List (String × String)) (body : Option String)
      (timeout : Option Nat) (config : Config),
      env.loadConfig = .ok config →
      ∃ out, fetch_url env now cache url method headers body timeout = .ok out)
    ∧ (∀ (env : Env) (url e : String), env.loadConfig = .error e →
      test_auth env url = ⟨none, none, some e⟩) := by
  constructor
  · intro env now cache url method headers body timeout config hld
    rw [fetch_url_of_ok hld]
    rcases hap : authPhase env now cache url (applyUserAgent config headers)
        (findMatchingRule env.regexTest url config.auth_rules) with ⟨res, cache2, ntok⟩
    cases res with
    | error msg => exact ⟨_, fetchWithConfig_authError hap⟩
    | ok p =>
      rcases p with ⟨url2, headers2⟩
      exact ⟨_, fetchWithConfig_authOk hap⟩
  · intro env url e hld
    unfold test_auth
    rw [hld]

/-- C1 (witness): the amended statement at concrete environments. -/
theorem entrypoints_exception_policy_witness :
    (∃ out, fetch_url envBase 0 [] "https://a.ex.com/z" "GET" [] none none = .ok out) ∧
    test_auth envBad "https://a.ex.com/z" = ⟨none, none, some "boom"⟩ :=
  ⟨entrypoints_exception_policy.1 envBase 0 [] "https://a.ex.com/z" "GET" [] none none
    ⟨[], none⟩ rfl,
   entrypoints_exception_policy.2 envBad "https://a.ex.com/z" "boom" rfl⟩

/-! ## Claim C5 — OAuth2 token caching -/

/-- C5: starting from a cache with no valid entry for the method's
`(token_url, client_id)` key, a first `getOAuth2Token` call performs
exactly one network exchange and stores
`{accessToken, expiresAt = now + (expires_in - 60)s}`; a second call at
any time inside the validity window performs no network exchange, returns
the cached access token, and leaves the cache unchanged. -/
theorem getOAuth2Token_cache_idempotent
    (net : String → List (String × String) → TokenNetResult)
    (cache0 : List (String × TokenEntry)) (a : OAuth2Auth)
    (now1 now2 : Int) (tok : String) (expiresIn : Int)
    (hmiss : ∀ e, cacheGet cache0 (oauthKey a) = some e → e.expiresAt ≤ now1)
    (hnet : net a.token_url (oauthParams a) = .ok tok expiresIn)
    (hwin : now2 < now1 + (expiresIn - 60) * 1000) :
    getOAuth2Token net now1 cache0 a =
      (.ok tok, cacheSet cache0 (oauthKey a) ⟨tok, now1 + (expiresIn - 60) * 1000⟩, 1) ∧
    getOAuth2Token net now2 (cacheSet cache0 (oauthKey a) ⟨tok, now1 + (expiresIn - 60) * 1000⟩) a =
      (.ok tok, cacheSet cache0 (oauthKey a) ⟨tok, now1 + (expiresIn - 60) * 1000⟩, 0) := by
  constructor
  · rw [getOAuth2Token_stale hmiss]
    unfold oauthExchange
    rw [hnet]
  · unfold getOAuth2Token
    rw [cacheGet_cacheSet]
    simp [hwin]

/-- C5 (witness): a fresh cache, an exchange at time 0 yielding a token
valid for one hour, and a second call at time 1000ms. -/
theorem getOAuth2Token_cache_idempotent_witness :
    getOAuth2Token netTok 0 [] oaFix =
      (.ok "TOK123", cacheSet [] (oauthKey oaFix) ⟨"TOK123", 0 + (3600 - 60) * 1000⟩, 1) ∧
    getOAuth2Token netTok 1000 (cacheSet [] (oauthKey oaFix) ⟨"TOK123", 0 + (3600 - 60) * 1000⟩) oaFix =
      (.ok "TOK123", cacheSet [] (oauthKey oaFix) ⟨"TOK123", 0 + (3600 - 60) * 1000⟩, 0) :=
  getOAuth2Token_cache_idempotent netTok [] oaFix 0 1000 "TOK123" 3600
    (fun _ h => nomatch h) rfl (by decide)

/-! ## Claim C6 — non-2xx token exchange -/

/-- C6: when the matched rule is OAuth2, no valid token is cached, and
the token endpoint answers non-2xx, `fetch_url` returns
`"Authentication failed: Failed to fetch OAuth2 token: <status>
<statusText> - <body>"`, the cache is left unchanged, and no resource
request is issued. -/
theorem fetch_url_oauth2_failure
    (env : Env) (now : Int) (cache : List (String × TokenEntry)) (config : Config)
    (url method : String) (headers : List (String × String)) (body : Option String)
    (timeout : Option Nat) (r : AuthRule) (oa : OAuth2Auth)
    (status : Nat) (statusText bodyText : String)
    (hld : env.loadConfig = .ok config)
    (hrule : findMatchingRule env.regexTest url config.auth_rules = some r)
    (hauth : r.auth = .oauth2 oa)
    (hmiss : ∀ e, cacheGet cache (oauthKey oa) = some e → e.expiresAt ≤ now)
    (hnet : env.tokenFetch oa.token_url (oauthParams oa) = .httpErr status statusText bodyText) :
    fetch_url env now cache url method headers body timeout =
      .ok ("Authentication failed: " ++ ("Failed to fetch OAuth2 token: " ++ toString status ++
        " " ++ statusText ++ " - " ++ bodyText), ⟨none, 0, 1, cache⟩) := by
  have htok : getOAuth2Token env.tokenFetch now cache oa =
      (.error ("Failed to fetch OAuth2 token: " ++ toString status ++ " " ++ statusText ++
        " - " ++ bodyText), cache, 1) := by
    rw [getOAuth2Token_stale hmiss]
    unfold oauthExchange
    rw [hnet]
  have hap : authPhase env now cache url (applyUserAgent config headers)
      (findMatchingRule env.regexTest url config.auth_rules) =
      (.error ("Failed to fetch OAuth2 token: " ++ toString status ++ " " ++ statusText ++
        " - " ++ bodyText), cache, 1) := by
    rw [hrule]
    show applyAuth env now cache url (applyUserAgent config headers) r.auth = _
    rw [hauth]
    show (match getOAuth2Token env.tokenFetch now cache oa with
      | (.ok tok, cache2, n) => (Except.ok (url, setHeader (applyUserAgent config headers)
          "Authorization" ("Bearer " ++ tok)), cache2, n)
      | (.error m, cache2, n) => (Except.error m, cache2, n)) = _
    rw [htok]
  rw [fetch_url_of_ok hld, fetchWithConfig_authError hap]

/-- C6 (witness): a 401 from the token endpoint surfaces verbatim and the
effects record shows zero resource requests and an unchanged cache. -/
theorem fetch_url_oauth2_failure_witness :
    fetch_url envOauthFail 0 [] "https://auth.example.com/x" "GET" [] none none =
      .ok ("Authentication failed: Failed to fetch OAuth2 token: 401 Unauthorized - bad client",
        ⟨none, 0, 1, []⟩) :=
  fetch_url_oauth2_failure envOauthFail 0 [] ⟨[oauthRule], none⟩
    "https://auth.example.com/x" "GET" [] none none oauthRule oaFix
    401 "Unauthorized" "bad client" rfl rfl rfl (fun _ h => nomatch h) rfl

/-! ## Claim C7 — global user agent vs caller headers

As stated the claim is false: `finalHeaders["User-Agent"] =
config.global_settings.user_agent` runs after the caller headers are
spread in, so a present global user agent overwrites the caller's
`User-Agent`.  The amended statement proves the layering the code
implements. -/

/-- C7 (counterexample): the caller supplies `User-Agent: Caller/1.0`,
the configuration sets `user_agent: Global/2.0`, and the outgoing request
carries the global value, not the caller's. -/
theorem fetch_url_user_agent_counterexample :
    fetch_url envUA 0 [] "https://a.ex.com/z" "GET" [("User-Agent", "Caller/1.0")] none none =
      .ok ("OK-BODY", ⟨some ⟨"https://a.ex.com/z", "GET", [("User-Agent", "Global/2.0")], none⟩,
        1, 0, []⟩) ∧
    ("Global/2.0" : String) ≠ "Caller/1.0" :=
  ⟨rfl, by decide⟩

/-- C7 (amended): when `global_settings.user_agent` is present (and
truthy) it overwrites any caller-supplied `User-Agent`: the outgoing
request carries the global value (shown for a matched bearer rule and for
no matched rule); the caller's `User-Agent` reaches the request only when
no global user agent is configured. -/
theorem fetch_url_user_agent_layering :
    (∀ (env : Env) (config : Config) (gs : GlobalSettings) (ua : String) (now : Int)
      (cache : List (String × TokenEntry)) (url method : String)
      (headers : List (String × String)) (body : Option String) (timeout : Option Nat),
      env.loadConfig = .ok config → config.global_settings = some gs →
      gs.user_agent = some ua → ua ≠ "" →
      (findMatchingRule env.regexTest url config.auth_rules = none ∨
        ∃ r t, findMatchingRule env.regexTest url config.auth_rules = some r ∧
          r.auth = .bearer t) →
      ∃ res eff req, fetch_url env now cache url method headers body timeout = .ok (res, eff) ∧
        eff.request = some req ∧ getHeader req.headers "User-Agent" = some ua)
    ∧ (∀ (env : Env) (config : Config) (now : Int)
      (cache : List (String × TokenEntry)) (url method : String)
      (headers : List (String × String)) (body : Option String) (timeout : Option Nat),
      env.loadConfig = .ok config → config.global_settings = none →
      findMatchingRule env.regexTest url config.auth_rules = none →
      ∃ res eff req, fetch_url env now cache url method headers body timeout = .ok (res, eff) ∧
        eff.request = some req ∧
        getHeader req.headers "User-Agent" = getHeader headers "User-Agent") := by
  constructor
  · intro env config gs ua now cache url method headers body timeout hld hgs hua hne hrule
    have hfh : applyUserAgent config headers = setHeader headers "User-Agent" ua := by
      simp [applyUserAgent, hgs, hua, hne]
    rcases hrule with hr | ⟨r, t, hr, ht⟩
    · have hap : authPhase env now cache url (applyUserAgent config headers)
          (findMatchingRule env.regexTest url config.auth_rules) =
          (.ok (url, setHeader headers "User-Agent" ua), cache, 0) := by
        rw [hr, hfh]
        rfl
      refine ⟨_, _, _, by rw [fetch_url_of_ok hld, fetchWithConfig_authOk hap]; rfl, rfl, ?_⟩
      exact getHeader_setHeader_same headers "User-Agent" ua
    · have hap : authPhase env now cache url (applyUserAgent config headers)
          (findMatchingRule env.regexTest url config.auth_rules) =
          (.ok (url, setHeader (setHeader headers "User-Agent" ua) "Authorization"
            ("Bearer " ++ t)), cache, 0) := by
        rw [hr, hfh]
        show applyAuth env now cache url (setHeader headers "User-Agent" ua) r.auth = _
        rw [ht]
        rfl
      refine ⟨_, _, _, by rw [fetch_url_of_ok hld, fetchWithConfig_authOk hap]; rfl, rfl, ?_⟩
      rw [getHeader_setHeader_other _ _ (by decide)]
      exact getHeader_setHeader_same headers "User-Agent" ua
  · intro env config now cache url method headers body timeout hld hgs hrule
    have hfh : applyUserAgent config headers = headers := by
      simp [applyUserAgent, hgs]
    have hap : authPhase env now cache url (applyUserAgent config headers)
        (findMatchingRule env.regexTest url config.auth_rules) =
        (.ok (url, headers), cache, 0) := by
      rw [hrule, hfh]
      rfl
    exact ⟨_, _, _, by rw [fetch_url_of_ok hld, fetchWithConfig_authOk hap]; rfl, rfl, rfl⟩

/-- C7 (witness): both clauses of the amended statement at concrete
environments. -/
theorem fetch_url_user_agent_layering_witness :
    (∃ res eff req,
      fetch_url envUA 0 [] "https://a.ex.com/z" "GET" [("User-Agent", "Caller/1.0")] none none =
        .ok (res, eff) ∧ eff.request = some req ∧
      getHeader req.headers "User-Agent" = some "Global/2.0") ∧
    (∃ res eff req,
      fetch_url envBase 0 [] "https://a.ex.com/z" "GET" [("User-Agent", "Caller/1.0")] none none =
        .ok (res, eff) ∧ eff.request = some req ∧
      getHeader req.headers "User-Agent" =
        getHeader [("User-Agent", "Caller/1.0")] "User-Agent") :=
  ⟨fetch_url_user_agent_layering.1 envUA ⟨[], some ⟨none, none, some "Global/2.0", none⟩⟩
    ⟨none, none, some "Global/2.0", none⟩ "Global/2.0" 0 [] "https://a.ex.com/z" "GET"
    [("User-Agent", "Caller/1.0")] none none rfl rfl rfl (by decide) (Or.inl rfl),
   fetch_url_user_agent_layering.2 envBase ⟨[], none⟩ 0 [] "https://a.ex.com/z" "GET"
    [("User-Agent", "Caller/1.0")] none none rfl rfl rfl⟩

/-! ## Claim C8 — timeout -/

/-- C8: when the transport does not settle strictly before the effective
timeout — the explicit per-call timeout if given, else
`global_settings.default_timeout`, else 30000ms — `fetch_url` returns
exactly `"Request timed out after <timeout>ms"`, and the effects record
shows the invocation issued exactly one transport call (none further). -/
theorem fetch_url_timeout
    (env : Env) (now : Int) (cache cache2 : List (String × TokenEntry)) (config : Config)
    (url method url2 : String) (headers headers2 : List (String × String))
    (body : Option String) (timeout : Option Nat) (ntok : Nat)
    (hld : env.loadConfig = .ok config)
    (hap : authPhase env now cache url (applyUserAgent config headers)
      (findMatchingRule env.regexTest url config.auth_rules) =
      (.ok (url2, headers2), cache2, ntok))
    (ht : timeout.getD ((config.global_settings.bind GlobalSettings.default_timeout).getD 30000) ≤
      (env.transport ⟨url2, method, headers2, body⟩).time) :
    fetch_url env now cache url method headers body timeout =
      .ok ("Request timed out after " ++
        toString (timeout.getD ((config.global_settings.bind GlobalSettings.default_timeout).getD 30000)) ++
        "ms", ⟨some ⟨url2, method, headers2, body⟩, 1, ntok, cache2⟩) := by
  rw [fetch_url_of_ok hld, fetchWithConfig_authOk hap]
  unfold dispatchRequest
  simp [ht]

/-- C8 (witness): no explicit timeout and no configured default, so the
effective timeout is 30000ms; the transport would settle at 900000ms, and
the call returns the timeout message having issued one transport call. -/
theorem fetch_url_timeout_witness :
    fetch_url envSlow 0 [] "https://a.ex.com/z" "GET" [] none none =
      .ok ("Request timed out after 30000ms",
        ⟨some ⟨"https://a.ex.com/z", "GET", [], none⟩, 1, 0, []⟩) :=
  fetch_url_timeout envSlow 0 [] [] ⟨[], none⟩ "https://a.ex.com/z" "GET"
    "https://a.ex.com/z" [] [] none none 0 rfl rfl (by decide)

/-! ## Claim C9 — masking -/

/-- C9: the masker replaces exactly the sensitive fields of the rule's
auth kind — for `bearer` only `token`; for `oauth2` only `client_secret`
and `refresh_token`, leaving `token_url`, `client_id` (and `scope`, the
pattern, description and enabled flag) visible — and masking an
already-masked rule is a no-op. -/
theorem maskAuthRule_masks_and_idempotent :
    (∀ (pat tok : String) (desc : Option String) (en : Option Bool),
      maskAuthRule ⟨pat, .bearer tok, desc, en⟩ = ⟨pat, .bearer MASKED, desc, en⟩)
    ∧ (∀ (pat tu cid cs : String) (sc rt : Option String) (desc : Option String) (en : Option Bool),
      maskAuthRule ⟨pat, .oauth2 ⟨tu, cid, cs, sc, rt⟩, desc, en⟩ =
        ⟨pat, .oauth2 ⟨tu, cid, MASKED, sc, some MASKED⟩, desc, en⟩)
    ∧ (∀ r : AuthRule, maskAuthRule (maskAuthRule r) = maskAuthRule r) := by
  refine ⟨fun _ _ _ _ => rfl, fun _ _ _ _ _ _ _ _ => rfl, ?_⟩
  intro r
  rcases r with ⟨pat, auth, desc, en⟩
  cases auth with
  | bearer t => rfl
  | api_key k v i => rfl
  | basic u p => rfl
  | cookie cs => simp [maskAuthRule, maskAuth, List.map_map, Function.comp]
  | function f => rfl
  | oauth2 a => rfl

/-! ## Claim C10 — `test_auth` hides the configuration file path -/

/-- C10: when a rule matches and verbose mode is off, the `configFile`
field of `test_auth` is the constant `"config file has used"` or null —
never the discovered path; the path (with the `"No config file found"`
fallback) is reported in the verbose branch. -/
theorem test_auth_configFile_policy
    (env : Env) (url : String) (config : Config) (r : AuthRule)
    (hld : env.loadConfig = .ok config)
    (hrule : findMatchingRule env.regexTest url config.auth_rules = some r) :
    (isVerbose config = false →
      ((test_auth env url).configFile = some "config file has used" ∨
       (test_auth env url).configFile = none))
    ∧ (isVerbose config = true →
      (test_auth env url).configFile = some (orElseStr env.configFile "No config file found")) := by
  rw [test_auth_of_ok hld]
  constructor
  · intro hv
    unfold testAuthWithConfig
    rw [hrule]
    simp only [hv, if_false, Bool.false_eq_true]
    cases hb : strTruthy env.configFile with
    | false => right; simp [hb]
    | true => left; simp [hb]
  · intro hv
    unfold testAuthWithConfig
    rw [hrule]
    simp [hv]

/-- C10 (witness): an exact rule matches, verbose mode is off, and the
`configFile` field is the constant string, not the path. -/
theorem test_auth_configFile_policy_witness :
    (test_auth envRule "https://a.ex.com/z").configFile = some "config file has used" ∨
    (test_auth envRule "https://a.ex.com/z").configFile = none :=
  (test_auth_configFile_policy envRule "https://a.ex.com/z" ⟨[ruleExactEx], none⟩
    ruleExactEx rfl rfl).1 rfl

end McpAuthFetch
